import Mathlib

/-!
Verification of the scheduling-assistant backend (busy-interval merging,
candidate-slot enumeration, and model-reply reconciliation).

Shallow embedding conventions:

* Timestamps handled by `merge_overlapping_intervals` are ISO-8601 strings in
  the source (`app/services/calendar.py`), compared with Python string
  comparison.  On the normalizer output (uniform zero-padded format, uniform
  offset) lexicographic string order coincides with chronological order, so
  timestamps are modelled as `Int` here; the merge logic only ever compares
  them and takes maxima.
* Wall-clock datetimes used by the slot enumerator
  (`app/services/gemini.py`) are modelled as `Int` microseconds on the local
  wall-clock timeline of the request timezone (a fixed-offset model of the
  zone); Python `datetime + timedelta` is wall-clock addition, `date()` is
  floor division by a day, and field accessors are `emod` projections.
  Python `//` and `%` on integers are floor division and nonnegative
  remainder, i.e. Lean `Int./` (`Int.ediv`) and `Int.%` (`Int.emod`).
* Calendar-field datetimes (`datetime.isoformat` / `datetime.fromisoformat`)
  are modelled by the record `PyDatetime` together with a character-level
  serializer and parser; the parser covers the canonical ISO-8601 shapes the
  serializer emits (plus naive and date-only forms) rather than every format
  accepted by CPython 3.11.
* Python `sorted` is a stable sort; it is modelled by `List.insertionSort`,
  which is also stable and kernel-computable.
* Fallible Python code is modelled with `Option`/`Except`; raised `ValueError`
  and `TypeError` are the two exception classes distinguished by the
  recommendation route (`ValueError` maps to HTTP 400, anything else to 502).
-/

/-! ### Data model: busy intervals (`app/schemas/availability.py`) -/

/-- Origin tag of a `BusyInterval` (`source: Literal["user", "backend"]`). -/
inductive Source where
  | user
  | backend
deriving DecidableEq, Repr

/-- `BusyInterval` from `app/schemas/availability.py`: a normalized half-open
span with an origin tag and a source event id.  `start`/`end` are ISO-8601
strings in the source, modelled as `Int` timestamps (see header). -/
structure BusyInterval where
  event_id : String
  start : Int
  «end» : Int
  source : Source
deriving DecidableEq, Repr

/-- Sort key used by `merge_overlapping_intervals`:
`key=lambda interval: (interval.start, interval.end)`, compared
lexicographically. -/
def leKey (a b : BusyInterval) : Prop :=
  a.start < b.start ∨ (a.start = b.start ∧ a.«end» ≤ b.«end»)

instance : DecidableRel leKey := fun a b => by unfold leKey; infer_instance

instance : IsTotal BusyInterval leKey := by
  constructor
  intro a b
  rcases lt_trichotomy a.start b.start with h | h | h
  · exact Or.inl (Or.inl h)
  · rcases le_total a.«end» b.«end» with h2 | h2
    · exact Or.inl (Or.inr ⟨h, h2⟩)
    · exact Or.inr (Or.inr ⟨h.symm, h2⟩)
  · exact Or.inr (Or.inl h)

instance : IsTrans BusyInterval leKey := by
  constructor
  intro a b c hab hbc
  rcases hab with h | ⟨he, hle⟩ <;> rcases hbc with h2 | ⟨he2, hle2⟩
  · exact Or.inl (lt_trans h h2)
  · exact Or.inl (he2 ▸ h)
  · exact Or.inl (he ▸ h2)
  · exact Or.inr ⟨he.trans he2, hle.trans hle2⟩

/-! ### `merge_overlapping_intervals` (`app/services/calendar.py`, lines 75-106)

The Python loop keeps a list `merged` and only ever inspects or replaces
`merged[-1]`; this is the tail-recursion on the running "last merged"
interval below. -/

/-- The left-to-right walk of `merge_overlapping_intervals`: `last` is
`merged[-1]`, and the source replaces it by an extended copy exactly when
`current.start <= last.end and current.source == last.source` and
`current.end > last.end`; when the condition holds but `current.end <=
last.end` the current interval is absorbed with no change; otherwise the
current interval is appended and becomes the new last. -/
def mergeLoop (last : BusyInterval) : List BusyInterval → List BusyInterval
  | [] => [last]
  | current :: rest =>
    if current.start ≤ last.«end» ∧ current.source = last.source then
      if last.«end» < current.«end» then
        mergeLoop
          { event_id := last.event_id, start := last.start,
            «end» := current.«end», source := last.source } rest
      else
        mergeLoop last rest
    else
      last :: mergeLoop current rest

/-- `merge_overlapping_intervals`: sort by `(start, end)` with Python's stable
sort, then walk once with `mergeLoop`; empty input yields `[]`. -/
def merge_overlapping_intervals (intervals : List BusyInterval) : List BusyInterval :=
  match List.insertionSort leKey intervals with
  | [] => []
  | first :: rest => mergeLoop first rest

/-! Spec-side restatement of the merge algorithm, used only to compare claim
C3's description against the implementation. -/

/-- Modelled from the spec wording of the merge walk: a new interval is
absorbed iff `new.start <= last.end` and `new.source == last.source`, in
which case `last.end` becomes `max(last.end, new.end)` while the original
`event_id` and `start` are kept; otherwise it is appended. -/
def mergeSpecLoop (last : BusyInterval) : List BusyInterval → List BusyInterval
  | [] => [last]
  | current :: rest =>
    if current.start ≤ last.«end» ∧ current.source = last.source then
      mergeSpecLoop { last with «end» := max last.«end» current.«end» } rest
    else
      last :: mergeSpecLoop current rest

/-- Modelled from the spec wording of `mergeOverlapping` (sort by
`(start, end)` ascending, then the `mergeSpecLoop` walk). -/
def mergeOverlappingSpec (intervals : List BusyInterval) : List BusyInterval :=
  match List.insertionSort leKey intervals with
  | [] => []
  | first :: rest => mergeSpecLoop first rest

lemma mergeLoop_eq_spec (last : BusyInterval) (rest : List BusyInterval) :
    mergeLoop last rest = mergeSpecLoop last rest := by
  induction rest generalizing last with
  | nil => rfl
  | cons current rest ih =>
    simp only [mergeLoop, mergeSpecLoop]
    by_cases h : current.start ≤ last.«end» ∧ current.source = last.source
    · simp only [if_pos h]
      by_cases h2 : last.«end» < current.«end»
      · rw [if_pos h2, ih]
        congr 1
        have : max last.«end» current.«end» = current.«end» := max_eq_right (le_of_lt h2)
        cases last
        simp_all
      · rw [if_neg h2, ih]
        congr 1
        have : max last.«end» current.«end» = last.«end» := max_eq_left (le_of_not_lt h2)
        cases last
        simp_all
    · simp only [if_neg h, ih]

/-- Example intervals for the single-pass (non-transitive) merge behaviour:
two `user` intervals overlapping each other but separated, in `(start, end)`
sort order, by an overlapping `backend` interval. -/
def sepA : BusyInterval := ⟨"a", 540, 600, Source.user⟩

/-- Second element of the separated-source example: a `backend` interval
nested inside `sepA`. -/
def sepB : BusyInterval := ⟨"b", 550, 560, Source.backend⟩

/-- Third element of the separated-source example: a `user` interval
overlapping both `sepA` and `sepB`. -/
def sepC : BusyInterval := ⟨"c", 555, 660, Source.user⟩

/-- Claim C3: `merge_overlapping_intervals` sorts by `(start, end)` ascending
and folds once, absorbing a new interval into the last merged one iff
`new.start <= last.end` and `new.source == last.source`, extending the kept
interval's end to `max(last.end, new.end)` while preserving its `event_id`
and `start`, and appending in every other case; empty input yields `[]`; and
two same-source intervals separated in sort order by a different-source
interval are not merged even if they overlap (concrete instance). -/
theorem merge_matches_spec_walk :
    (∀ intervals : List BusyInterval,
      merge_overlapping_intervals intervals = mergeOverlappingSpec intervals) ∧
    merge_overlapping_intervals [] = [] ∧
    merge_overlapping_intervals [sepA, sepB, sepC] = [sepA, sepB, sepC] := by
  refine ⟨?_, rfl, by decide⟩
  intro intervals
  unfold merge_overlapping_intervals mergeOverlappingSpec
  cases List.insertionSort leKey intervals with
  | nil => rfl
  | cons first rest => exact mergeLoop_eq_spec first rest

/-! ### Structural lemmas about the merge walk, for claims C4 and C5 -/

/-- Adjacent outputs of the merge never satisfy the absorption condition:
this is the relation that holds between consecutive entries of the result. -/
def noAbsorb (a b : BusyInterval) : Prop :=
  ¬(b.start ≤ a.«end» ∧ b.source = a.source)

lemma mergeLoop_head (last : BusyInterval) (rest : List BusyInterval) :
    ∃ e tail, mergeLoop last rest = { last with «end» := e } :: tail ∧
      last.«end» ≤ e := by
  induction rest generalizing last with
  | nil => exact ⟨last.«end», [], rfl, le_refl _⟩
  | cons current rest ih =>
    simp only [mergeLoop]
    by_cases h : current.start ≤ last.«end» ∧ current.source = last.source
    · rw [if_pos h]
      by_cases h2 : last.«end» < current.«end»
      · rw [if_pos h2]
        obtain ⟨e, tail, heq, hle⟩ := ih
          { event_id := last.event_id, start := last.start,
            «end» := current.«end», source := last.source }
        exact ⟨e, tail, heq, le_trans (le_of_lt h2) hle⟩
      · rw [if_neg h2]
        exact ih last
    · rw [if_neg h]
      exact ⟨last.«end», mergeLoop current rest, rfl, le_refl _⟩

lemma mergeLoop_mem_spec (last : BusyInterval) (rest : List BusyInterval) :
    ∀ x ∈ mergeLoop last rest, ∃ y ∈ last :: rest,
      x.start = y.start ∧ x.source = y.source ∧ x.event_id = y.event_id ∧
      y.«end» ≤ x.«end» ∧ ∃ z ∈ last :: rest, x.«end» = z.«end» := by
  induction rest generalizing last with
  | nil =>
    intro x hx
    simp only [mergeLoop, List.mem_singleton] at hx
    subst hx
    exact ⟨x, by simp, rfl, rfl, rfl, le_refl _, x, by simp, rfl⟩
  | cons current rest ih =>
    intro x hx
    simp only [mergeLoop] at hx
    by_cases h : current.start ≤ last.«end» ∧ current.source = last.source
    · rw [if_pos h] at hx
      by_cases h2 : last.«end» < current.«end»
      · rw [if_pos h2] at hx
        obtain ⟨y, hy, h1, h2', h3, h4, z, hz, h5⟩ := ih _ x hx
        rcases List.mem_cons.mp hy with hy | hy
        · subst hy
          refine ⟨last, by simp, h1, h2', h3, ?_, ?_⟩
          · exact le_trans (le_of_lt h2) h4
          · rcases List.mem_cons.mp hz with hz' | hz'
            · exact ⟨current, by simp, by rw [h5, hz']⟩
            · exact ⟨z, by simp [hz'], h5⟩
        · refine ⟨y, by simp [hy], h1, h2', h3, h4, ?_⟩
          rcases List.mem_cons.mp hz with hz' | hz'
          · exact ⟨current, by simp, by rw [h5, hz']⟩
          · exact ⟨z, by simp [hz'], h5⟩
      · rw [if_neg h2] at hx
        obtain ⟨y, hy, h1, h2', h3, h4, z, hz, h5⟩ := ih last x hx
        rcases List.mem_cons.mp hy with hy | hy
        · exact ⟨y, by simp [hy], h1, h2', h3, h4, by
            rcases List.mem_cons.mp hz with hz' | hz'
            · exact ⟨z, by simp [hz'], h5⟩
            · exact ⟨z, by simp [hz'], h5⟩⟩
        · exact ⟨y, by simp [hy], h1, h2', h3, h4, by
            rcases List.mem_cons.mp hz with hz' | hz'
            · exact ⟨z, by simp [hz'], h5⟩
            · exact ⟨z, by simp [hz'], h5⟩⟩
    · rw [if_neg h] at hx
      rcases List.mem_cons.mp hx with hx | hx
      · subst hx
        exact ⟨x, by simp, rfl, rfl, rfl, le_refl _, x, by simp, rfl⟩
      · obtain ⟨y, hy, h1, h2', h3, h4, z, hz, h5⟩ := ih current x hx
        exact ⟨y, by simp [List.mem_cons.mp hy], h1, h2', h3, h4,
          z, by simp [List.mem_cons.mp hz], h5⟩

lemma mergeLoop_sorted (last : BusyInterval) (rest : List BusyInterval)
    (h : List.Pairwise leKey (last :: rest)) :
    List.Pairwise leKey (mergeLoop last rest) := by
  induction rest generalizing last with
  | nil => simp [mergeLoop]
  | cons current rest ih =>
    rw [List.pairwise_cons] at h
    obtain ⟨hlast, hrest⟩ := h
    rw [List.pairwise_cons] at hrest
    obtain ⟨hcur, hrest⟩ := hrest
    simp only [mergeLoop]
    by_cases hc : current.start ≤ last.«end» ∧ current.source = last.source
    · rw [if_pos hc]
      by_cases h2 : last.«end» < current.«end»
      · rw [if_pos h2]
        apply ih
        rw [List.pairwise_cons]
        refine ⟨?_, hrest⟩
        intro r hr
        have hlr := hlast r (by simp [hr])
        have hcr := hcur r hr
        rcases hlr with hlt | ⟨heq, hle⟩
        · exact Or.inl hlt
        · right
          refine ⟨heq, ?_⟩
          have hlc := hlast current (by simp)
          have hcs : current.start = r.start := by
            rcases hlc with hlt' | ⟨heq', _⟩
            · rcases hcr with hlt'' | ⟨heq'', _⟩
              · exact absurd (lt_trans hlt' hlt'') (by rw [heq]; exact lt_irrefl _)
              · exact absurd (heq'' ▸ hlt' : last.start < r.start)
                  (by rw [heq]; exact lt_irrefl _)
            · rcases hcr with hlt'' | ⟨heq'', _⟩
              · exact absurd (heq' ▸ hlt'' : last.start < r.start)
                  (by rw [heq]; exact lt_irrefl _)
              · exact heq''
          rcases hcr with hlt'' | ⟨_, hle''⟩
          · exact absurd (hcs ▸ hlt'') (lt_irrefl _)
          · exact hle''
      · rw [if_neg h2]
        apply ih
        rw [List.pairwise_cons]
        exact ⟨fun r hr => hlast r (by simp [hr]), hrest⟩
    · rw [if_neg hc]
      rw [List.pairwise_cons]
      refine ⟨?_, ih current (List.pairwise_cons.mpr ⟨hcur, hrest⟩)⟩
      intro x hx
      obtain ⟨y, hy, h1, _, _, h4, _⟩ := mergeLoop_mem_spec current rest x hx
      have hly : leKey last y := by
        rcases List.mem_cons.mp hy with hy' | hy'
        · exact hy' ▸ hlast current (by simp)
        · exact hlast y (by simp [hy'])
      rcases hly with hlt | ⟨heq, hle⟩
      · exact Or.inl (h1 ▸ hlt)
      · exact Or.inr ⟨h1 ▸ heq, le_trans hle h4⟩

lemma mergeLoop_chain (last : BusyInterval) (rest : List BusyInterval) :
    List.Chain' noAbsorb (mergeLoop last rest) := by
  induction rest generalizing last with
  | nil => simp [mergeLoop]
  | cons current rest ih =>
    simp only [mergeLoop]
    by_cases hc : current.start ≤ last.«end» ∧ current.source = last.source
    · rw [if_pos hc]
      by_cases h2 : last.«end» < current.«end»
      · rw [if_pos h2]; exact ih _
      · rw [if_neg h2]; exact ih last
    · rw [if_neg hc]
      rw [List.chain'_cons']
      refine ⟨?_, ih current⟩
      intro h hh
      obtain ⟨e, tail, heq, _⟩ := mergeLoop_head current rest
      rw [heq] at hh
      simp only [List.head?_cons, Option.mem_def, Option.some.injEq] at hh
      subst hh
      exact hc

lemma mergeLoop_id_of_chain (last : BusyInterval) (rest : List BusyInterval)
    (h : List.Chain' noAbsorb (last :: rest)) :
    mergeLoop last rest = last :: rest := by
  induction rest generalizing last with
  | nil => rfl
  | cons current rest ih =>
    rw [List.chain'_cons] at h
    obtain ⟨hna, hrest⟩ := h
    simp only [mergeLoop]
    rw [if_neg hna, ih current hrest]

lemma mergeLoop_length (last : BusyInterval) (rest : List BusyInterval) :
    (mergeLoop last rest).length ≤ rest.length + 1 := by
  induction rest generalizing last with
  | nil => simp [mergeLoop]
  | cons current rest ih =>
    simp only [mergeLoop]
    by_cases hc : current.start ≤ last.«end» ∧ current.source = last.source
    · rw [if_pos hc]
      by_cases h2 : last.«end» < current.«end»
      · rw [if_pos h2]
        exact le_trans (ih _) (by simp)
      · rw [if_neg h2]
        exact le_trans (ih last) (by simp)
    · rw [if_neg hc]
      simpa using ih current

lemma merged_sorted (X : List BusyInterval) :
    List.Pairwise leKey (merge_overlapping_intervals X) := by
  unfold merge_overlapping_intervals
  have hs : List.Sorted leKey (List.insertionSort leKey X) :=
    List.sorted_insertionSort leKey X
  cases h : List.insertionSort leKey X with
  | nil => simp
  | cons first rest =>
    rw [h] at hs
    exact mergeLoop_sorted first rest hs

lemma merged_chain (X : List BusyInterval) :
    List.Chain' noAbsorb (merge_overlapping_intervals X) := by
  unfold merge_overlapping_intervals
  cases List.insertionSort leKey X with
  | nil => simp
  | cons first rest => exact mergeLoop_chain first rest

/-- Claim C4: merging is idempotent. -/
theorem merge_idempotent (X : List BusyInterval) :
    merge_overlapping_intervals (merge_overlapping_intervals X) =
      merge_overlapping_intervals X := by
  cases hout : merge_overlapping_intervals X with
  | nil => simp [merge_overlapping_intervals]
  | cons f r =>
    have hs := merged_sorted X
    rw [hout] at hs
    have hc := merged_chain X
    rw [hout] at hc
    show merge_overlapping_intervals (f :: r) = f :: r
    unfold merge_overlapping_intervals
    rw [List.Sorted.insertionSort_eq hs]
    exact mergeLoop_id_of_chain f r hc

/-! ### Claim C5: output properties of the merge -/

/-- `x` is covered by the union of the same-source members of `X`, pointwise
over the half-open span `[x.start, x.end)`. -/
def coveredBy (x : BusyInterval) (X : List BusyInterval) : Prop :=
  ∀ t : Int, x.start ≤ t → t < x.«end» →
    ∃ y ∈ X, y.source = x.source ∧ y.start ≤ t ∧ t < y.«end»

lemma mergeLoop_covers (X : List BusyInterval) (last : BusyInterval)
    (rest : List BusyInterval) (hrest : ∀ y ∈ rest, y ∈ X)
    (hlast : coveredBy last X) :
    ∀ x ∈ mergeLoop last rest, coveredBy x X := by
  induction rest generalizing last with
  | nil =>
    intro x hx
    simp only [mergeLoop, List.mem_singleton] at hx
    subst hx
    exact hlast
  | cons current rest ih =>
    intro x hx
    simp only [mergeLoop] at hx
    by_cases hc : current.start ≤ last.«end» ∧ current.source = last.source
    · rw [if_pos hc] at hx
      by_cases h2 : last.«end» < current.«end»
      · rw [if_pos h2] at hx
        refine ih _ (fun y hy => hrest y (by simp [hy])) ?_ x hx
        intro t h1 h3
        by_cases hth : t < last.«end»
        · exact hlast t h1 hth
        · exact ⟨current, hrest current (by simp), hc.2, le_trans hc.1 (le_of_not_lt hth), h3⟩
      · rw [if_neg h2] at hx
        exact ih last (fun y hy => hrest y (by simp [hy])) hlast x hx
    · rw [if_neg hc] at hx
      rcases List.mem_cons.mp hx with hx | hx
      · subst hx
        exact hlast
      · refine ih current (fun y hy => hrest y (by simp [hy])) ?_ x hx
        intro t h1 h3
        exact ⟨current, hrest current (by simp), rfl, h1, h3⟩

lemma merged_covers (X : List BusyInterval) :
    ∀ x ∈ merge_overlapping_intervals X, coveredBy x X := by
  unfold merge_overlapping_intervals
  cases h : List.insertionSort leKey X with
  | nil => simp
  | cons first rest =>
    have hmem : ∀ y ∈ first :: rest, y ∈ X := by
      intro y hy
      rw [← h] at hy
      exact (List.mem_insertionSort leKey).mp hy
    refine mergeLoop_covers X first rest (fun y hy => hmem y (by simp [hy])) ?_
    intro t h1 h3
    exact ⟨first, hmem first (by simp), rfl, h1, h3⟩

/-- Claim C5: for every non-empty input list, the merge output is sorted
ascending by start, every output interval's half-open span is covered by the
union of same-source inputs, and the output count never exceeds the input
count. -/
theorem merge_output_properties (X : List BusyInterval) (hX : X ≠ []) :
    List.Pairwise (fun a b => a.start ≤ b.start) (merge_overlapping_intervals X) ∧
    (∀ x ∈ merge_overlapping_intervals X, ∀ t : Int, x.start ≤ t → t < x.«end» →
      ∃ y ∈ X, y.source = x.source ∧ y.start ≤ t ∧ t < y.«end») ∧
    (merge_overlapping_intervals X).length ≤ X.length := by
  refine ⟨?_, merged_covers X, ?_⟩
  · refine (merged_sorted X).imp ?_
    intro a b hab
    rcases hab with h | ⟨h, _⟩
    · exact le_of_lt h
    · exact le_of_eq h
  · unfold merge_overlapping_intervals
    have hlen : (List.insertionSort leKey X).length = X.length :=
      List.length_insertionSort leKey X
    cases h : List.insertionSort leKey X with
    | nil => simp
    | cons first rest =>
      rw [h] at hlen
      calc (mergeLoop first rest).length ≤ rest.length + 1 :=
            mergeLoop_length first rest
        _ = X.length := by simpa using hlen

/-- Witness for claim C5 at a concrete non-empty input. -/
theorem merge_output_properties_witness :
    List.Pairwise (fun a b => a.start ≤ b.start)
      (merge_overlapping_intervals [sepA, sepB, sepC]) ∧
    (∀ x ∈ merge_overlapping_intervals [sepA, sepB, sepC], ∀ t : Int,
      x.start ≤ t → t < x.«end» →
      ∃ y ∈ [sepA, sepB, sepC], y.source = x.source ∧ y.start ≤ t ∧ t < y.«end») ∧
    (merge_overlapping_intervals [sepA, sepB, sepC]).length ≤
      ([sepA, sepB, sepC] : List BusyInterval).length :=
  merge_output_properties [sepA, sepB, sepC] (by decide)

/-! ### Claim C9: `slot_event_to_interval` (`app/services/calendar.py`, lines 28-57)

`SlotEvent` carries the pydantic constraints of `app/schemas/availability.py`
(`start_time_index >= 0`, `end_time_index > 0`, `slots_per_hour > 0`, and the
model validator `end_time_index > start_time_index`).  The datetimes built by
`slot_index_to_datetime` are modelled in minutes since the epoch midnight of
day 0 of the fixed-offset zone; `Path combine(date, min.time)` is
`slot_date * 1440`, and ISO serialization of these datetimes is
order-preserving, so the interval comparison happens at this level. -/

/-- `SlotEvent` from `app/schemas/availability.py`. -/
structure SlotEvent where
  id : String
  slot_date : Int
  start_time_index : Int
  end_time_index : Int
  slots_per_hour : Int
deriving DecidableEq, Repr

/-- `slot_index_to_datetime`: `minutes_per_slot = 60 // slots_per_hour`
(Python floor division), start of day plus `slot_index * minutes_per_slot`
minutes. -/
def slot_index_to_datetime (event_date : Int) (slot_index : Int)
    (slots_per_hour : Int) : Int :=
  let minutes_per_slot := 60 / slots_per_hour
  event_date * 1440 + slot_index * minutes_per_slot

/-- `slot_event_to_interval`: both endpoints on `event.slot_date`, origin tag
`user`.  The timezone argument of the source only selects the (fixed-offset)
zone and is absorbed by the timeline model. -/
def slot_event_to_interval (event : SlotEvent) : BusyInterval :=
  { event_id := event.id,
    start := slot_index_to_datetime event.slot_date event.start_time_index
      event.slots_per_hour,
    «end» := slot_index_to_datetime event.slot_date event.end_time_index
      event.slots_per_hour,
    source := Source.user }

/-- An event that passes every schema check but has 61 slots per hour, so
`minutes_per_slot = 60 // 61 = 0`. -/
def badSlotEvent : SlotEvent := ⟨"evt", 0, 0, 1, 61⟩

/-- Counterexample to claim C9 as stated: `badSlotEvent` satisfies all the
schema-validation conditions (`start_time_index >= 0`, `end_time_index > 0`,
`slots_per_hour > 0`, `end_time_index > start_time_index`), yet the produced
interval has `start = end`, not `start < end`. -/
theorem slot_event_interval_not_positive :
    (0 ≤ badSlotEvent.start_time_index ∧ 0 < badSlotEvent.end_time_index ∧
     0 < badSlotEvent.slots_per_hour ∧
     badSlotEvent.start_time_index < badSlotEvent.end_time_index) ∧
    ¬((slot_event_to_interval badSlotEvent).start <
      (slot_event_to_interval badSlotEvent).«end») := by
  decide

/-- Claim C9 as amended: the normalizer invariant `start < end` holds for
every schema-accepted event whose `slots_per_hour` is at most 60 (so that
`60 // slots_per_hour` is a positive number of minutes per slot). -/
theorem slot_event_interval_positive (e : SlotEvent)
    (h1 : e.start_time_index < e.end_time_index)
    (h2 : 0 < e.slots_per_hour) (h3 : e.slots_per_hour ≤ 60) :
    (slot_event_to_interval e).start < (slot_event_to_interval e).«end» := by
  simp only [slot_event_to_interval, slot_index_to_datetime]
  have hmps : (1 : Int) ≤ 60 / e.slots_per_hour := by
    rw [Int.le_ediv_iff_mul_le h2]
    omega
  have := mul_lt_mul_of_pos_right h1 (lt_of_lt_of_le one_pos hmps)
  omega

/-- Witness for the amended claim C9 at a concrete accepted event. -/
theorem slot_event_interval_positive_witness :
    (slot_event_to_interval ⟨"evt", 19000, 18, 20, 2⟩).start <
      (slot_event_to_interval ⟨"evt", 19000, 18, 20, 2⟩).«end» :=
  slot_event_interval_positive ⟨"evt", 19000, 18, 20, 2⟩ (by decide) (by decide)
    (by decide)

/-! ### Claim C7: `_round_up_to_increment` (`app/services/gemini.py`, lines 57-63)

Datetimes are `Int` microseconds on the local wall-clock timeline; the field
accessors below are the Python `datetime` field projections on that
timeline. -/

/-- The `microsecond` field of a wall-clock instant. -/
def pyMicrosecond (t : Int) : Int := t % 1000000

/-- The `second` field of a wall-clock instant. -/
def pySecond (t : Int) : Int := (t / 1000000) % 60

/-- The `minute` field of a wall-clock instant. -/
def pyMinute (t : Int) : Int := (t / 60000000) % 60

/-- The `hour` field of a wall-clock instant. -/
def pyHour (t : Int) : Int := (t / 3600000000) % 24

/-- `_round_up_to_increment`: remainder of seconds-since-midnight modulo the
increment; zero adjustment iff already aligned with zero microseconds;
otherwise advance by `increment_seconds - remainder`; add the adjustment
while cancelling the microseconds, then `replace(second=0, microsecond=0)`. -/
def round_up_to_increment (dt : Int) (minutes : Int) : Int :=
  let increment_seconds := minutes * 60
  let seconds_since_midnight := pyHour dt * 3600 + pyMinute dt * 60 + pySecond dt
  let remainder := seconds_since_midnight % increment_seconds
  let adjustment :=
    if remainder = 0 ∧ pyMicrosecond dt = 0 then 0
    else increment_seconds - remainder
  let rounded := dt + adjustment * 1000000 - pyMicrosecond dt
  rounded - pySecond rounded * 1000000 - pyMicrosecond rounded

/-- Claim C7: for the fixed 30-minute increment, `_round_up_to_increment`
returns the least instant `t >= dt` whose offset from local midnight is an
exact multiple of the increment with zero seconds and microseconds, and it
returns `dt` unchanged when `dt` is already such an instant. -/
theorem round_up_to_increment_least (dt : Int) :
    dt ≤ round_up_to_increment dt 30 ∧
    (pyHour (round_up_to_increment dt 30) * 3600 +
      pyMinute (round_up_to_increment dt 30) * 60 +
      pySecond (round_up_to_increment dt 30)) % 1800 = 0 ∧
    pySecond (round_up_to_increment dt 30) = 0 ∧
    pyMicrosecond (round_up_to_increment dt 30) = 0 ∧
    (∀ t : Int, dt ≤ t →
      (pyHour t * 3600 + pyMinute t * 60 + pySecond t) % 1800 = 0 →
      pySecond t = 0 → pyMicrosecond t = 0 →
      round_up_to_increment dt 30 ≤ t) ∧
    ((pyHour dt * 3600 + pyMinute dt * 60 + pySecond dt) % 1800 = 0 →
      pySecond dt = 0 → pyMicrosecond dt = 0 →
      round_up_to_increment dt 30 = dt) := by
  simp only [round_up_to_increment, pyHour, pyMinute, pySecond, pyMicrosecond]
  split_ifs with h
  · refine ⟨by omega, by omega, by omega, by omega, ?_, by omega⟩
    intro t h1 h2 h3 h4
    omega
  · refine ⟨by omega, by omega, by omega, by omega, ?_, by omega⟩
    intro t h1 h2 h3 h4
    omega

/-- Witness for claim C7: leastness applied at a concrete instant, and the
unchanged case at an aligned instant. -/
theorem round_up_to_increment_least_witness :
    round_up_to_increment 123456789 30 ≤ 1800000000 ∧
    round_up_to_increment 3600000000 30 = 3600000000 :=
  ⟨(round_up_to_increment_least 123456789).2.2.2.2.1 1800000000 (by decide)
      (by decide) (by decide) (by decide),
   (round_up_to_increment_least 3600000000).2.2.2.2.2 (by decide) (by decide)
      (by decide)⟩

/-! ### Calendar-field datetimes and ISO-8601 serialization

`datetime.isoformat` and `datetime.fromisoformat` from CPython, as used by
`CandidateSlot.key` and `_extract_option_from_payload`
(`app/services/gemini.py`).  A `PyDatetime` is the field content of a Python
`datetime`; `utcoffset` is the zone offset in minutes east of UTC (`none` for
a naive datetime). -/

/-- Number of days in a month of the proleptic Gregorian calendar (CPython
`calendar` rules, used by the `datetime` constructor to validate `day`). -/
def daysInMonth (y m : Nat) : Nat :=
  if m = 1 ∨ m = 3 ∨ m = 5 ∨ m = 7 ∨ m = 8 ∨ m = 10 ∨ m = 12 then 31
  else if m = 4 ∨ m = 6 ∨ m = 9 ∨ m = 11 then 30
  else if y % 4 = 0 ∧ (y % 100 ≠ 0 ∨ y % 400 = 0) then 29
  else 28

/-- Field content of a Python `datetime` object. -/
structure PyDatetime where
  year : Nat
  month : Nat
  day : Nat
  hour : Nat
  minute : Nat
  second : Nat
  microsecond : Nat
  utcoffset : Option Int
deriving DecidableEq, Repr

/-- A `tzinfo` offset accepted by Python `timezone`: strictly between
-24 and +24 hours (whole minutes in this model). -/
def validOffset : Option Int → Bool
  | none => true
  | some o => o.natAbs ≤ 1439

/-- Field ranges enforced by the Python `datetime` constructor. -/
def ValidFields (y mo d h mi s us : Nat) (off : Option Int) : Prop :=
  1 ≤ y ∧ y ≤ 9999 ∧ 1 ≤ mo ∧ mo ≤ 12 ∧ 1 ≤ d ∧ d ≤ daysInMonth y mo ∧
  h ≤ 23 ∧ mi ≤ 59 ∧ s ≤ 59 ∧ us ≤ 999999 ∧ validOffset off = true

instance (y mo d h mi s us : Nat) (off : Option Int) :
    Decidable (ValidFields y mo d h mi s us off) := by
  unfold ValidFields
  infer_instance

/-- The `datetime` type invariant. -/
def ValidDatetime (dt : PyDatetime) : Prop :=
  ValidFields dt.year dt.month dt.day dt.hour dt.minute dt.second
    dt.microsecond dt.utcoffset

instance (dt : PyDatetime) : Decidable (ValidDatetime dt) := by
  unfold ValidDatetime
  infer_instance

/-- Fixed-width decimal rendering (most significant digit first), as used by
`datetime.isoformat` for each zero-padded field. -/
def padDigits : Nat → Nat → List Char
  | 0, _ => []
  | k + 1, n => padDigits k (n / 10) ++ [Nat.digitChar (n % 10)]

/-- The fractional-seconds part of `isoformat`: empty when `microsecond` is
zero, otherwise a dot and six digits. -/
def microChars (us : Nat) : List Char :=
  if us = 0 then [] else '.' :: padDigits 6 us

/-- The UTC-offset suffix of `isoformat`: empty for naive datetimes,
otherwise sign, two-digit hours, colon, two-digit minutes. -/
def offsetChars : Option Int → List Char
  | none => []
  | some o =>
    (if o < 0 then '-' else '+') ::
      (padDigits 2 (o.natAbs / 60) ++ ':' :: padDigits 2 (o.natAbs % 60))

/-- `datetime.isoformat` at character level:
`YYYY-MM-DDTHH:MM:SS[.ffffff][+HH:MM]`. -/
def isoChars (dt : PyDatetime) : List Char :=
  padDigits 4 dt.year ++ '-' :: (padDigits 2 dt.month ++ '-' ::
    (padDigits 2 dt.day ++ 'T' :: (padDigits 2 dt.hour ++ ':' ::
      (padDigits 2 dt.minute ++ ':' ::
        (padDigits 2 dt.second ++
          (microChars dt.microsecond ++ offsetChars dt.utcoffset))))))

/-- `datetime.isoformat` as a string. -/
def isoformat (dt : PyDatetime) : String := String.mk (isoChars dt)

/-- Decimal digit test on a character. -/
def isDigitChar (c : Char) : Bool := 48 ≤ c.toNat && c.toNat ≤ 57

/-- Read exactly `k` decimal digits, most significant first, extending the
accumulator `acc`. -/
def readFixedNat : Nat → Nat → List Char → Option (Nat × List Char)
  | 0, acc, cs => some (acc, cs)
  | _ + 1, _, [] => none
  | k + 1, acc, c :: cs =>
    if isDigitChar c then readFixedNat k (acc * 10 + (c.toNat - 48)) cs
    else none

/-- Consume one expected character. -/
def expectChar (c : Char) : List Char → Option (List Char)
  | [] => none
  | d :: cs => if d = c then some cs else none

/-- Optional fractional-seconds part: a dot followed by six digits, or
nothing. -/
def parseFraction : List Char → Option (Nat × List Char)
  | [] => some (0, [])
  | c :: cs =>
    if c = '.' then
      match readFixedNat 6 0 cs with
      | some (us, rest) => some (us, rest)
      | none => none
    else some (0, c :: cs)

/-- Optional trailing UTC offset: nothing (naive), `Z`, or
sign / two digits / colon / two digits, consuming the whole remainder;
the reconstructed offset must be a valid `timezone` offset. -/
def parseOffsetPart : List Char → Option (Option Int)
  | [] => some none
  | c :: cs =>
    if c = 'Z' then
      match cs with
      | [] => some (some 0)
      | _ => none
    else if c = '+' ∨ c = '-' then
      match readFixedNat 2 0 cs with
      | some (oh, rest) =>
        match expectChar ':' rest with
        | some rest =>
          match readFixedNat 2 0 rest with
          | some (om, []) =>
            if om ≤ 59 ∧ oh * 60 + om ≤ 1439 then
              some (some (if c = '-' then -((oh * 60 + om : Nat) : Int)
                else ((oh * 60 + om : Nat) : Int)))
            else none
          | _ => none
        | none => none
      | none => none
    else none

/-- Time-of-day part of `fromisoformat`:
`HH:MM[:SS[.ffffff]][offset]`. -/
def parseTimeTail (cs : List Char) : Option (Nat × Nat × Nat × Nat × Option Int) := do
  let (h, cs) ← readFixedNat 2 0 cs
  let cs ← expectChar ':' cs
  let (mi, cs) ← readFixedNat 2 0 cs
  match cs with
  | ':' :: cs => do
    let (s, cs) ← readFixedNat 2 0 cs
    let (us, cs) ← parseFraction cs
    let off ← parseOffsetPart cs
    pure (h, mi, s, us, off)
  | cs => do
    let off ← parseOffsetPart cs
    pure (h, mi, 0, 0, off)

/-- `datetime.fromisoformat` at character level, covering the canonical
shapes `YYYY-MM-DD[THH:MM[:SS[.ffffff]][offset]]` (CPython 3.11 accepts some
further ISO-8601 variants; every string produced by `isoformat` is in the
canonical subset).  Field validation mirrors the `datetime` constructor. -/
def fromisoChars (cs : List Char) : Option PyDatetime := do
  let (y, cs) ← readFixedNat 4 0 cs
  let cs ← expectChar '-' cs
  let (mo, cs) ← readFixedNat 2 0 cs
  let cs ← expectChar '-' cs
  let (d, cs) ← readFixedNat 2 0 cs
  let (h, mi, s, us, off) ←
    match cs with
    | [] => pure (0, 0, 0, 0, none)
    | 'T' :: rest => parseTimeTail rest
    | _ => none
  if ValidFields y mo d h mi s us off then
    pure ⟨y, mo, d, h, mi, s, us, off⟩
  else none

/-- `datetime.fromisoformat`. -/
def fromisoformat (s : String) : Option PyDatetime := fromisoChars s.data

/-! ### Round trip of the ISO serialization (claim C8) -/

lemma digitChar_isDigit : ∀ d : Nat, d < 10 →
    isDigitChar (Nat.digitChar d) = true ∧ (Nat.digitChar d).toNat - 48 = d := by
  decide

lemma readFixedNat_digit (k acc : Nat) (c : Char) (cs : List Char)
    (h : isDigitChar c = true) :
    readFixedNat (k + 1) acc (c :: cs) =
      readFixedNat k (acc * 10 + (c.toNat - 48)) cs := by
  simp [readFixedNat, h]

lemma readFixedNat_padDigits (k : Nat) : ∀ (j acc n : Nat) (rest : List Char),
    n < 10 ^ k →
    readFixedNat (k + j) acc (padDigits k n ++ rest) =
      readFixedNat j (acc * 10 ^ k + n) rest := by
  induction k with
  | zero =>
    intro j acc n rest h
    simp only [pow_zero] at h
    have hn : n = 0 := by omega
    subst hn
    simp [padDigits]
  | succ k ih =>
    intro j acc n rest h
    have h10 : n / 10 < 10 ^ k := by
      rw [pow_succ] at h
      omega
    have hd := digitChar_isDigit (n % 10) (by omega)
    calc readFixedNat (k + 1 + j) acc (padDigits (k + 1) n ++ rest)
        = readFixedNat (k + (j + 1)) acc
            (padDigits k (n / 10) ++ (Nat.digitChar (n % 10) :: rest)) := by
          simp only [padDigits, List.append_assoc, List.singleton_append]
          congr 1
          omega
      _ = readFixedNat (j + 1) (acc * 10 ^ k + n / 10)
            (Nat.digitChar (n % 10) :: rest) := ih (j + 1) acc (n / 10) _ h10
      _ = readFixedNat j ((acc * 10 ^ k + n / 10) * 10 +
            ((Nat.digitChar (n % 10)).toNat - 48)) rest :=
          readFixedNat_digit j _ _ rest hd.1
      _ = readFixedNat j (acc * 10 ^ (k + 1) + n) rest := by
          rw [hd.2]
          congr 1
          rw [pow_succ, ← mul_assoc]
          generalize acc * 10 ^ k = B
          omega

lemma readFixedNat_pad (k n : Nat) (rest : List Char) (h : n < 10 ^ k) :
    readFixedNat k 0 (padDigits k n ++ rest) = some (n, rest) := by
  have := readFixedNat_padDigits k 0 0 n rest h
  simpa [readFixedNat] using this

lemma readFixedNat_pad_nil (k n : Nat) (h : n < 10 ^ k) :
    readFixedNat k 0 (padDigits k n) = some (n, []) := by
  have := readFixedNat_pad k n [] h
  simpa using this

lemma expectChar_cons (c : Char) (cs : List Char) :
    expectChar c (c :: cs) = some cs := by
  simp [expectChar]

lemma parseFraction_not_dot (c : Char) (cs : List Char) (h : c ≠ '.') :
    parseFraction (c :: cs) = some (0, c :: cs) := by
  simp [parseFraction, h]

lemma parseOffsetPart_offsetChars (off : Option Int)
    (hoff : validOffset off = true) :
    parseOffsetPart (offsetChars off) = some off := by
  cases off with
  | none => rfl
  | some o =>
    have ha : o.natAbs ≤ 1439 := by simpa [validOffset] using hoff
    have h60 : o.natAbs / 60 < 10 ^ 2 := by omega
    have h60' : o.natAbs % 60 < 10 ^ 2 := by omega
    simp only [offsetChars]
    by_cases ho : o < 0
    · rw [if_pos ho]
      simp only [parseOffsetPart,
        if_neg (by decide : ¬('-' = 'Z')),
        if_pos (by decide : ('-' = '+' ∨ '-' = '-')),
        readFixedNat_pad 2 (o.natAbs / 60) (':' :: padDigits 2 (o.natAbs % 60)) h60,
        expectChar_cons, readFixedNat_pad_nil 2 (o.natAbs % 60) h60',
        if_pos (show o.natAbs % 60 ≤ 59 ∧ o.natAbs / 60 * 60 + o.natAbs % 60 ≤ 1439
          by omega),
        if_pos (rfl : '-' = '-')]
      have h' : o.natAbs / 60 * 60 + o.natAbs % 60 = o.natAbs := by omega
      rw [h']
      simp only [true_or, or_true, if_true, Option.some.injEq]
      omega
    · rw [if_neg ho]
      simp only [parseOffsetPart,
        if_neg (by decide : ¬('+' = 'Z')),
        if_pos (by decide : ('+' = '+' ∨ '+' = '-')),
        readFixedNat_pad 2 (o.natAbs / 60) (':' :: padDigits 2 (o.natAbs % 60)) h60,
        expectChar_cons, readFixedNat_pad_nil 2 (o.natAbs % 60) h60',
        if_pos (show o.natAbs % 60 ≤ 59 ∧ o.natAbs / 60 * 60 + o.natAbs % 60 ≤ 1439
          by omega),
        if_neg (by decide : ¬('+' = '-'))]
      have h' : o.natAbs / 60 * 60 + o.natAbs % 60 = o.natAbs := by omega
      rw [h']
      simp only [true_or, or_true, if_true, Option.some.injEq]
      omega

lemma parseFraction_microChars (us : Nat) (hus : us ≤ 999999) (off : Option Int) :
    parseFraction (microChars us ++ offsetChars off) = some (us, offsetChars off) := by
  unfold microChars
  by_cases h0 : us = 0
  · subst h0
    rw [if_pos rfl]
    simp only [List.nil_append]
    cases off with
    | none => rfl
    | some o =>
      simp only [offsetChars]
      by_cases ho : o < 0
      · rw [if_pos ho]
        exact parseFraction_not_dot '-' _ (by decide)
      · rw [if_neg ho]
        exact parseFraction_not_dot '+' _ (by decide)
  · rw [if_neg h0]
    simp only [List.cons_append]
    have h6 : us < 10 ^ 6 := by omega
    simp [parseFraction, readFixedNat_pad 6 us (offsetChars off) h6]

lemma daysInMonth_le (y m : Nat) : daysInMonth y m ≤ 31 := by
  unfold daysInMonth
  split_ifs <;> omega

lemma parseTimeTail_iso (h mi s us : Nat) (off : Option Int)
    (hh : h < 100) (hmi : mi < 100) (hs : s < 100) (hus : us ≤ 999999)
    (hoff : validOffset off = true) :
    parseTimeTail (padDigits 2 h ++ ':' ::
      (padDigits 2 mi ++ ':' ::
        (padDigits 2 s ++ (microChars us ++ offsetChars off)))) =
      some (h, mi, s, us, off) := by
  unfold parseTimeTail
  rw [readFixedNat_pad 2 h _ (by omega)]
  simp only [Option.bind_eq_bind, Option.some_bind]
  rw [expectChar_cons]
  simp only [Option.some_bind]
  rw [readFixedNat_pad 2 mi _ (by omega)]
  simp only [Option.some_bind]
  rw [readFixedNat_pad 2 s _ (by omega)]
  simp only [Option.some_bind]
  rw [parseFraction_microChars us hus off]
  simp only [Option.some_bind]
  rw [parseOffsetPart_offsetChars off hoff]
  simp only [Option.some_bind]
  rfl

lemma fromisoChars_isoChars (dt : PyDatetime) (hv : ValidDatetime dt) :
    fromisoChars (isoChars dt) = some dt := by
  obtain ⟨y, mo, d, h, mi, s, us, off⟩ := dt
  unfold ValidDatetime at hv
  dsimp only at hv
  obtain ⟨h1, h2, h3, h4, h5, h6, h7, h8, h9, h10, h11⟩ := hv
  have hd31 := daysInMonth_le y mo
  unfold fromisoChars isoChars
  dsimp only
  rw [readFixedNat_pad 4 y _ (by omega)]
  simp only [Option.bind_eq_bind, Option.some_bind]
  rw [expectChar_cons]
  simp only [Option.some_bind]
  rw [readFixedNat_pad 2 mo _ (by omega)]
  simp only [Option.some_bind]
  rw [expectChar_cons]
  simp only [Option.some_bind]
  rw [readFixedNat_pad 2 d _ (by omega)]
  simp only [Option.some_bind]
  rw [parseTimeTail_iso h mi s us off (by omega) (by omega) (by omega) h10 h11]
  simp only [Option.some_bind]
  rw [if_pos (show ValidFields y mo d h mi s us off from
    ⟨h1, h2, h3, h4, h5, h6, h7, h8, h9, h10, h11⟩)]
  rfl

/-- The `start|end` candidate key at datetime level:
`f-string start.isoformat() | end.isoformat()` of `CandidateSlot.key`
(`app/services/gemini.py`, line 37) and of the lookup key rebuilt in
`_extract_option_from_payload` (line 188). -/
def slotKey (startDt endDt : PyDatetime) : String :=
  isoformat startDt ++ "|" ++ isoformat endDt

/-- Claim C8: for every candidate slot endpoint pair (valid Python
datetimes), parsing each ISO serialization with `fromisoformat` returns the
same datetime, so re-serializing yields strings identical to the originals,
and the `start|end` key rebuilt from an option that echoes the candidate's
ISO timestamps verbatim equals the candidate's own key. -/
theorem candidate_key_round_trip (s e : PyDatetime)
    (hs : ValidDatetime s) (he : ValidDatetime e) :
    fromisoformat (isoformat s) = some s ∧
    fromisoformat (isoformat e) = some e ∧
    (∀ ds de : PyDatetime, fromisoformat (isoformat s) = some ds →
      fromisoformat (isoformat e) = some de → slotKey ds de = slotKey s e) := by
  have h1 : fromisoformat (isoformat s) = some s := fromisoChars_isoChars s hs
  have h2 : fromisoformat (isoformat e) = some e := fromisoChars_isoChars e he
  refine ⟨h1, h2, ?_⟩
  intro ds de hds hde
  rw [h1] at hds
  rw [h2] at hde
  cases hds
  cases hde
  rfl

/-- Witness for claim C8 at a concrete aware candidate slot. -/
theorem candidate_key_round_trip_witness :
    fromisoformat (isoformat ⟨2025, 1, 2, 9, 0, 0, 0, some 0⟩) =
      some ⟨2025, 1, 2, 9, 0, 0, 0, some 0⟩ ∧
    fromisoformat (isoformat ⟨2025, 1, 2, 10, 30, 0, 0, some 0⟩) =
      some ⟨2025, 1, 2, 10, 30, 0, 0, some 0⟩ ∧
    (∀ ds de : PyDatetime,
      fromisoformat (isoformat ⟨2025, 1, 2, 9, 0, 0, 0, some 0⟩) = some ds →
      fromisoformat (isoformat ⟨2025, 1, 2, 10, 30, 0, 0, some 0⟩) = some de →
      slotKey ds de =
        slotKey ⟨2025, 1, 2, 9, 0, 0, 0, some 0⟩ ⟨2025, 1, 2, 10, 30, 0, 0, some 0⟩) :=
  candidate_key_round_trip ⟨2025, 1, 2, 9, 0, 0, 0, some 0⟩
    ⟨2025, 1, 2, 10, 30, 0, 0, some 0⟩ (by decide) (by decide)

/-! ### Candidate slot enumeration (`app/services/gemini.py`, lines 25-108)

Busy intervals reach `_parse_busy_intervals` as the schema records with their
ISO string timestamps; this string-level view is `BusyIntervalISO`.  Parsed
datetimes are placed on the `Int` microsecond wall-clock timeline of the
request timezone (modelled as a fixed offset `tzOffsetMinutes`);
`astimezone` shifts wall time by the offset difference, using the system
offset `sysOffsetMinutes` for naive datetimes. -/

/-- String-level view of `BusyInterval` as consumed by
`_parse_busy_intervals`. -/
structure BusyIntervalISO where
  event_id : String
  start : String
  «end» : String
  source : Source
deriving DecidableEq, Repr

/-- Days between a proleptic Gregorian civil date and 1970-01-01 (the
standard era-based conversion used to linearize calendar fields). -/
def daysFromCivil (y m d : Int) : Int :=
  let yAdj := if m ≤ 2 then y - 1 else y
  let era := (if 0 ≤ yAdj then yAdj else yAdj - 399) / 400
  let yoe := yAdj - era * 400
  let mp := (m + 9) % 12
  let doy := (153 * mp + 2) / 5 + d - 1
  let doe := yoe * 365 + yoe / 4 - yoe / 100 + doy
  era * 146097 + doe - 719468

/-- Wall-clock microseconds of a datetime's own fields (its naive reading). -/
def wallMicros (dt : PyDatetime) : Int :=
  daysFromCivil dt.year dt.month dt.day * 86400000000 +
    (dt.hour : Int) * 3600000000 + (dt.minute : Int) * 60000000 +
    (dt.second : Int) * 1000000 + (dt.microsecond : Int)

/-- `datetime.astimezone(tz)` on the fixed-offset timeline: shift to UTC by
the datetime's own offset (the system offset for a naive datetime), then to
the target zone's wall clock. -/
def astimezoneMicros (dt : PyDatetime) (tzOffsetMinutes sysOffsetMinutes : Int) :
    Int :=
  match dt.utcoffset with
  | some off => wallMicros dt - off * 60000000 + tzOffsetMinutes * 60000000
  | none => wallMicros dt - sysOffsetMinutes * 60000000 + tzOffsetMinutes * 60000000

/-- `_parse_busy_intervals`: parse each interval's two timestamps with
`fromisoformat` into the target zone, skipping any interval whose timestamps
fail to parse, then sort the spans by start. -/
def parse_busy_intervals (busy_intervals : List BusyIntervalISO)
    (tzOffsetMinutes sysOffsetMinutes : Int) : List (Int × Int) :=
  let parsed := busy_intervals.filterMap fun interval =>
    match fromisoformat interval.start, fromisoformat interval.«end» with
    | some s, some e =>
      some (astimezoneMicros s tzOffsetMinutes sysOffsetMinutes,
        astimezoneMicros e tzOffsetMinutes sysOffsetMinutes)
    | _, _ => none
  List.insertionSort (fun a b => a.1 ≤ b.1) parsed

/-- `_overlaps`: `not (end <= busy_start or start >= busy_end)` — half-open
semantics, boundary contact is no conflict. -/
def overlaps (start «end» busy_start busy_end : Int) : Bool :=
  !(decide («end» ≤ busy_start) || decide (start ≥ busy_end))

/-- `CandidateSlot` (`app/services/gemini.py`, lines 30-37), on the
wall-clock timeline. -/
structure CandidateSlot where
  start : Int
  «end» : Int
deriving DecidableEq, Repr

/-- `SLOT_INCREMENT_MINUTES = 30`. -/
def SLOT_INCREMENT_MINUTES : Int := 30

/-- `MAX_CANDIDATE_SLOTS = 168`. -/
def MAX_CANDIDATE_SLOTS : Nat := 168

/-- The `while current + duration <= window_end` loop of
`_generate_candidate_slots`: skip cursor positions whose slot would cross a
calendar-day boundary, skip conflicts with any parsed busy span, emit
conflict-free slots, break once the cap is reached, and always advance the
cursor by one increment.  The source's locals `candidate_end = current +
duration` and the extended candidate list are inlined. -/
def slotLoop (busy_spans : List (Int × Int)) (duration window_end current : Int)
    (candidates : List CandidateSlot) : List CandidateSlot :=
  if h : current + duration ≤ window_end then
    if (current + duration) / 86400000000 ≠ current / 86400000000 then
      slotLoop busy_spans duration window_end
        (current + SLOT_INCREMENT_MINUTES * 60000000) candidates
    else if busy_spans.any fun b => overlaps current (current + duration) b.1 b.2 then
      slotLoop busy_spans duration window_end
        (current + SLOT_INCREMENT_MINUTES * 60000000) candidates
    else if MAX_CANDIDATE_SLOTS ≤
        (candidates ++ [CandidateSlot.mk current (current + duration)]).length then
      candidates ++ [CandidateSlot.mk current (current + duration)]
    else
      slotLoop busy_spans duration window_end
        (current + SLOT_INCREMENT_MINUTES * 60000000)
        (candidates ++ [CandidateSlot.mk current (current + duration)])
  else candidates
termination_by (window_end - duration - current + 1800000000).toNat
decreasing_by
  all_goals simp only [SLOT_INCREMENT_MINUTES]
  all_goals omega

/-- `_generate_candidate_slots`: window end is `now + days_ahead` days, the
cursor starts at `now` rounded up to the next 30-minute boundary, and the
loop collects conflict-free same-day slots of the requested duration. -/
def generate_candidate_slots (busy_intervals : List BusyIntervalISO)
    (tzOffsetMinutes sysOffsetMinutes : Int) (duration_minutes days_ahead : Int)
    (now : Int) : List CandidateSlot :=
  let window_end := now + days_ahead * 86400000000
  let busy_spans := parse_busy_intervals busy_intervals tzOffsetMinutes
    sysOffsetMinutes
  let duration := duration_minutes * 60000000
  let current := round_up_to_increment now SLOT_INCREMENT_MINUTES
  slotLoop busy_spans duration window_end current []

/-! ### Claim C2: invariants of the enumerator loop -/

lemma slotLoop_spec (busy_spans : List (Int × Int)) (duration window_end : Int) :
    ∀ (current : Int) (candidates : List CandidateSlot),
    (∀ c ∈ candidates, c.«end» = c.start + duration) →
    (∀ c ∈ candidates, c.start / 86400000000 = c.«end» / 86400000000) →
    (∀ c ∈ candidates, ∀ b ∈ busy_spans,
      overlaps c.start c.«end» b.1 b.2 = false) →
    List.Pairwise (fun a b => a.start < b.start) candidates →
    (∀ c ∈ candidates, c.start < current) →
    candidates.length < MAX_CANDIDATE_SLOTS →
    (∀ c ∈ slotLoop busy_spans duration window_end current candidates,
        c.«end» = c.start + duration ∧
        c.start / 86400000000 = c.«end» / 86400000000 ∧
        ∀ b ∈ busy_spans, overlaps c.start c.«end» b.1 b.2 = false) ∧
    List.Pairwise (fun a b => a.start < b.start)
      (slotLoop busy_spans duration window_end current candidates) ∧
    (slotLoop busy_spans duration window_end current candidates).length ≤
      MAX_CANDIDATE_SLOTS := by
  intro current candidates
  induction current, candidates using slotLoop.induct busy_spans duration window_end with
  | case1 current candidates hguard hdate ih =>
    intro h1 h2 h3 h4 h5 h6
    rw [slotLoop]
    simp only [dif_pos hguard]
    rw [if_pos hdate]
    refine ih h1 h2 h3 h4 ?_ h6
    intro c hc
    have := h5 c hc
    simp only [SLOT_INCREMENT_MINUTES]
    omega
  | case2 current candidates hguard hdate hconf ih =>
    intro h1 h2 h3 h4 h5 h6
    rw [slotLoop]
    simp only [dif_pos hguard]
    rw [if_neg hdate, if_pos hconf]
    refine ih h1 h2 h3 h4 ?_ h6
    intro c hc
    have := h5 c hc
    simp only [SLOT_INCREMENT_MINUTES]
    omega
  | case3 current candidates hguard hdate hconf hbreak =>
    intro h1 h2 h3 h4 h5 h6
    rw [slotLoop]
    simp only [dif_pos hguard]
    rw [if_neg hdate, if_neg hconf, if_pos hbreak]
    have hnoc : ∀ b ∈ busy_spans,
        overlaps current (current + duration) b.1 b.2 = false := by
      intro b hb
      exact eq_false_of_ne_true
        (List.any_eq_false.mp (eq_false_of_ne_true hconf) b hb)
    refine ⟨?_, ?_, ?_⟩
    · intro c hc
      rcases List.mem_append.mp hc with hc | hc
      · exact ⟨h1 c hc, h2 c hc, h3 c hc⟩
      · have hce : c = ⟨current, current + duration⟩ := by simpa using hc
        subst hce
        refine ⟨rfl, ?_, hnoc⟩
        have hd := not_not.mp hdate
        simpa using hd.symm
    · rw [List.pairwise_append]
      refine ⟨h4, by simp, ?_⟩
      intro a ha b hb
      have hbe : b = ⟨current, current + duration⟩ := by simpa using hb
      subst hbe
      exact h5 a ha
    · simp only [List.length_append, List.length_singleton]
      omega
  | case4 current candidates hguard hdate hconf hbreak ih =>
    intro h1 h2 h3 h4 h5 h6
    rw [slotLoop]
    simp only [dif_pos hguard]
    rw [if_neg hdate, if_neg hconf, if_neg hbreak]
    have hnoc : ∀ b ∈ busy_spans,
        overlaps current (current + duration) b.1 b.2 = false := by
      intro b hb
      exact eq_false_of_ne_true
        (List.any_eq_false.mp (eq_false_of_ne_true hconf) b hb)
    refine ih ?_ ?_ ?_ ?_ ?_ ?_
    · intro c hc
      rcases List.mem_append.mp hc with hc | hc
      · exact h1 c hc
      · have hce : c = ⟨current, current + duration⟩ := by simpa using hc
        subst hce
        rfl
    · intro c hc
      rcases List.mem_append.mp hc with hc | hc
      · exact h2 c hc
      · have hce : c = ⟨current, current + duration⟩ := by simpa using hc
        subst hce
        have hd := not_not.mp hdate
        simpa using hd.symm
    · intro c hc
      rcases List.mem_append.mp hc with hc | hc
      · exact h3 c hc
      · have hce : c = ⟨current, current + duration⟩ := by simpa using hc
        subst hce
        exact hnoc
    · rw [List.pairwise_append]
      refine ⟨h4, by simp, ?_⟩
      intro a ha b hb
      have hbe : b = ⟨current, current + duration⟩ := by simpa using hb
      subst hbe
      exact h5 a ha
    · intro c hc
      rcases List.mem_append.mp hc with hc | hc
      · have := h5 c hc
        simp only [SLOT_INCREMENT_MINUTES]
        omega
      · have hce : c = ⟨current, current + duration⟩ := by simpa using hc
        subst hce
        simp only [SLOT_INCREMENT_MINUTES]
        omega
    · simp only [List.length_append, List.length_singleton] at hbreak ⊢
      omega
  | case5 current candidates hguard =>
    intro h1 h2 h3 h4 h5 h6
    rw [slotLoop]
    simp only [dif_neg hguard]
    exact ⟨fun c hc => ⟨h1 c hc, h2 c hc, h3 c hc⟩, h4, by omega⟩

/-- Claim C2: every emitted candidate slot has length exactly the requested
duration, has start and end on the same calendar date, does not overlap any
successfully parsed busy span (half-open semantics: boundary contact is no
conflict), the emitted starts are strictly increasing, and the total count
is at most 168. -/
theorem generate_candidate_slots_spec (busy_intervals : List BusyIntervalISO)
    (tzOffsetMinutes sysOffsetMinutes duration_minutes days_ahead now : Int) :
    (∀ c ∈ generate_candidate_slots busy_intervals tzOffsetMinutes
        sysOffsetMinutes duration_minutes days_ahead now,
      c.«end» = c.start + duration_minutes * 60000000 ∧
      c.start / 86400000000 = c.«end» / 86400000000 ∧
      ∀ b ∈ parse_busy_intervals busy_intervals tzOffsetMinutes sysOffsetMinutes,
        overlaps c.start c.«end» b.1 b.2 = false) ∧
    List.Pairwise (fun a b => a.start < b.start)
      (generate_candidate_slots busy_intervals tzOffsetMinutes sysOffsetMinutes
        duration_minutes days_ahead now) ∧
    (generate_candidate_slots busy_intervals tzOffsetMinutes sysOffsetMinutes
      duration_minutes days_ahead now).length ≤ 168 := by
  unfold generate_candidate_slots
  have := slotLoop_spec
    (parse_busy_intervals busy_intervals tzOffsetMinutes sysOffsetMinutes)
    (duration_minutes * 60000000)
    (now + days_ahead * 86400000000)
    (round_up_to_increment now SLOT_INCREMENT_MINUTES) []
    (by simp) (by simp) (by simp) (by simp) (by simp) (by decide)
  simpa [MAX_CANDIDATE_SLOTS] using this

/-! ### Model-reply payloads (`_extract_option_from_payload`,
`app/services/gemini.py`, lines 149-200)

JSON values as decoded by `json.loads`; a JSON `null` inside an object is
Python `None`, so `dict.get` cannot distinguish a null value from a missing
key, while subscripting distinguishes them (`KeyError` only when the key is
absent).  Raised exception classes matter to the route: `ValueError`
(including pydantic `ValidationError`, its subclass) maps to HTTP 400,
`TypeError` escapes to the generic 502 handler. -/

/-- JSON values (numbers modelled as integers). -/
inductive Json where
  | null
  | bool (b : Bool)
  | num (n : Int)
  | str (s : String)
  | arr (items : List Json)
  | obj (fields : List (String × Json))

/-- Python exception classes distinguished by the recommendation route. -/
inductive PyErr where
  | valueError (msg : String)
  | typeError (msg : String)
deriving DecidableEq, Repr

/-- `RecommendationOption` from `app/schemas/recommendations.py` (pydantic
model: `id`, `label`, `reason` are strings, `start`/`end` datetimes). -/
structure RecommendationOption where
  id : String
  label : String
  start : PyDatetime
  «end» : PyDatetime
  reason : String
deriving DecidableEq, Repr

/-- Dictionary lookup with `json.loads` duplicate-key semantics: the last
occurrence of a key wins. -/
def lookupLast (fields : List (String × Json)) (key : String) : Option Json :=
  match fields with
  | [] => none
  | (k, v) :: rest =>
    match lookupLast rest key with
    | some v2 => some v2
    | none => if k = key then some v else none

/-- `dict.get`: a JSON null value decodes to Python `None`, which `get`
cannot distinguish from a missing key. -/
def pyGet (fields : List (String × Json)) (key : String) : Option Json :=
  match lookupLast fields key with
  | some Json.null => none
  | r => r

/-- Python truthiness of a decoded JSON value. -/
def jsonTruthy : Json → Bool
  | .null => false
  | .bool b => b
  | .num n => decide (n ≠ 0)
  | .str s => decide (s ≠ "")
  | .arr items => !items.isEmpty
  | .obj fields => !fields.isEmpty

/-- Lines 163-167: take the `option` value, falling back to the first
element of a non-empty `options` list when `option` is `None` (absent or
null). -/
def resolveOptionPayload (fields : List (String × Json)) : Option Json :=
  match pyGet fields "option" with
  | some v => some v
  | none =>
    match pyGet fields "options" with
    | some (.arr (x :: _)) => some x
    | _ => none

/-- Line 175: `option_payload.get("reason") or ""` — the reason value, with
Python `or` replacing any falsy value by the empty string. -/
def reasonResolved (option_fields : List (String × Json)) : Json :=
  match pyGet option_fields "reason" with
  | some v => if jsonTruthy v then v else Json.str ""
  | none => Json.str ""

/-- `datetime.fromisoformat` applied to a decoded JSON value: a non-string
argument raises `TypeError` (lines 179-183 catch only `ValueError`, so the
`TypeError` escapes `_extract_option_from_payload`). -/
def fromisoformatJson (v : Json) : Except PyErr PyDatetime :=
  match v with
  | .str s =>
    match fromisoformat s with
    | some dt => .ok dt
    | none =>
      .error (.valueError "Gemini option timestamps were not valid ISO datetimes.")
  | _ => .error (.typeError "fromisoformat: argument must be str")

/-- Whitespace test of Python `str.strip()` (ASCII whitespace; the model of
the strip used on `message`). -/
def isSpaceChar (c : Char) : Bool :=
  c = ' ' ∨ c = '\t' ∨ c = '\n' ∨ c = '\r' ∨ c = '\x0b' ∨ c = '\x0c'

/-- Python `str.strip()`: drop leading and trailing whitespace. -/
def pyStrip (s : String) : String :=
  String.mk (((s.data.dropWhile isSpaceChar).reverse.dropWhile isSpaceChar).reverse)

/-- Lines 172-200 after the option payload is resolved: field extraction,
ISO parsing, timezone check, exact candidate-key matching, and the pydantic
construction of the returned `RecommendationOption` (whose `reason` field
must be a string). -/
def validateOptionPayload (option_payload : Option Json)
    (candidate_keys : List String) (option_id option_label : String)
    (message : String) : Except PyErr (String × RecommendationOption) :=
  match option_payload with
  | some (.obj option_fields) =>
    match lookupLast option_fields "start" with
    | none => .error (.valueError "Gemini option payload is missing required fields.")
    | some start_v =>
      match lookupLast option_fields "end" with
      | none => .error (.valueError "Gemini option payload is missing required fields.")
      | some end_v =>
        match fromisoformatJson start_v with
        | .error e => .error e
        | .ok start_dt =>
          match fromisoformatJson end_v with
          | .error e => .error e
          | .ok end_dt =>
            if start_dt.utcoffset = none ∨ end_dt.utcoffset = none then
              .error (.valueError "Gemini option timestamps must include timezone information.")
            else if (isoformat start_dt ++ "|" ++ isoformat end_dt) ∈ candidate_keys then
              match reasonResolved option_fields with
              | .str reason =>
                .ok (pyStrip message,
                  ⟨option_id, option_label, start_dt, end_dt, reason⟩)
              | _ =>
                .error (.valueError "validation error for RecommendationOption: reason must be a string")
            else
              .error (.valueError
                ("Gemini option (" ++ option_label ++ ") did not match any available slot."))
  | _ => .error (.valueError "Gemini response did not include a single option.")

/-- `_extract_option_from_payload`: reject non-object payloads, require a
non-blank string `message`, resolve the option payload, and validate it. -/
def extract_option_from_payload (payload : Json)
    (candidate_keys : List String) (option_id option_label : String) :
    Except PyErr (String × RecommendationOption) :=
  match payload with
  | .obj fields =>
    match pyGet fields "message" with
    | some (.str message) =>
      if pyStrip message = "" then
        .error (.valueError "Gemini response is missing a descriptive message.")
      else
        validateOptionPayload (resolveOptionPayload fields) candidate_keys
          option_id option_label message
    | _ => .error (.valueError "Gemini response is missing a descriptive message.")
  | _ => .error (.valueError "Gemini response payload must be a JSON object.")

/-! ### Claim C1: the single-option validation gate -/

/-- A payload whose option carries a non-string `start`: every condition the
claim checks before the ISO parse holds, but the parse raises `TypeError`,
which lines 179-183 do not catch. -/
def nonStringStartPayload : Json :=
  Json.obj [("message", Json.str "ok"),
    ("option", Json.obj [("start", Json.num 5),
      ("end", Json.str "2025-01-02T10:00:00+00:00")])]

/-- Counterexample to claim C1 as stated: on `nonStringStartPayload` the
parser raises `TypeError` (`fromisoformat` applied to a non-string), not a
validation error (`ValueError`), so "in every other case it raises a
validation error" fails at this input. -/
theorem extract_option_counterexample :
    extract_option_from_payload nonStringStartPayload [] "option_a" "Option A" =
      Except.error (PyErr.typeError "fromisoformat: argument must be str") ∧
    ∀ msg : String,
      PyErr.typeError "fromisoformat: argument must be str" ≠
        PyErr.valueError msg :=
  ⟨rfl, fun _ h => PyErr.noConfusion h⟩

/-- Claim C1 as amended: `_extract_option_from_payload` returns a stripped
non-blank message and a `RecommendationOption` carrying the caller-supplied
id and label if and only if the payload is a JSON object with a non-blank
string `message` and a resolved option object whose `start` and `end` are
ISO-8601 strings with a timezone offset, whose re-serialized `start|end` key
is present in the candidate map, and whose `reason` resolves to a string
(absent or falsy values default to the empty string; other non-string values
fail pydantic validation); the returned option carries exactly the parsed
timestamps, never a nearest or different candidate.  In every other case it
raises an error — a `ValueError`, except that a present non-string
`start`/`end` raises an uncaught `TypeError`. -/
theorem extract_option_ok_iff (payload : Json) (candidate_keys : List String)
    (option_id option_label : String) (r : String × RecommendationOption) :
    extract_option_from_payload payload candidate_keys option_id option_label =
      Except.ok r ↔
    ∃ fields message option_fields ss se start_dt end_dt reason,
      payload = Json.obj fields ∧
      pyGet fields "message" = some (Json.str message) ∧
      pyStrip message ≠ "" ∧
      resolveOptionPayload fields = some (Json.obj option_fields) ∧
      lookupLast option_fields "start" = some (Json.str ss) ∧
      lookupLast option_fields "end" = some (Json.str se) ∧
      fromisoformat ss = some start_dt ∧
      fromisoformat se = some end_dt ∧
      start_dt.utcoffset ≠ none ∧
      end_dt.utcoffset ≠ none ∧
      (isoformat start_dt ++ "|" ++ isoformat end_dt) ∈ candidate_keys ∧
      reasonResolved option_fields = Json.str reason ∧
      r = (pyStrip message,
        ⟨option_id, option_label, start_dt, end_dt, reason⟩) := by
  constructor
  · intro h
    cases payload with
    | null => exact Except.noConfusion h
    | bool b => exact Except.noConfusion h
    | num n => exact Except.noConfusion h
    | str s => exact Except.noConfusion h
    | arr items => exact Except.noConfusion h
    | obj fields =>
      simp only [extract_option_from_payload] at h
      cases hm : pyGet fields "message" with
      | none =>
        rw [hm] at h
        exact Except.noConfusion h
      | some v =>
        rw [hm] at h
        cases v with
        | null => exact Except.noConfusion h
        | bool b => exact Except.noConfusion h
        | num n => exact Except.noConfusion h
        | arr items => exact Except.noConfusion h
        | obj f2 => exact Except.noConfusion h
        | str message =>
          dsimp only at h
          by_cases ht : pyStrip message = ""
          · rw [if_pos ht] at h
            exact Except.noConfusion h
          · rw [if_neg ht] at h
            cases ho : resolveOptionPayload fields with
            | none =>
              rw [ho] at h
              exact Except.noConfusion h
            | some ov =>
              rw [ho] at h
              cases ov with
              | null => exact Except.noConfusion h
              | bool b => exact Except.noConfusion h
              | num n => exact Except.noConfusion h
              | str s2 => exact Except.noConfusion h
              | arr items => exact Except.noConfusion h
              | obj option_fields =>
                simp only [validateOptionPayload] at h
                cases hs : lookupLast option_fields "start" with
                | none =>
                  rw [hs] at h
                  exact Except.noConfusion h
                | some sv =>
                  rw [hs] at h
                  cases he : lookupLast option_fields "end" with
                  | none =>
                    rw [he] at h
                    exact Except.noConfusion h
                  | some ev =>
                    rw [he] at h
                    cases sv with
                    | null => exact Except.noConfusion h
                    | bool b => exact Except.noConfusion h
                    | num n => exact Except.noConfusion h
                    | arr items => exact Except.noConfusion h
                    | obj f3 => exact Except.noConfusion h
                    | str ss =>
                      simp only [fromisoformatJson] at h
                      cases hfs : fromisoformat ss with
                      | none =>
                        rw [hfs] at h
                        exact Except.noConfusion h
                      | some start_dt =>
                        rw [hfs] at h
                        cases ev with
                        | null => exact Except.noConfusion h
                        | bool b => exact Except.noConfusion h
                        | num n => exact Except.noConfusion h
                        | arr items => exact Except.noConfusion h
                        | obj f4 => exact Except.noConfusion h
                        | str se =>
                          dsimp only at h
                          cases hfe : fromisoformat se with
                          | none =>
                            rw [hfe] at h
                            exact Except.noConfusion h
                          | some end_dt =>
                            rw [hfe] at h
                            dsimp only at h
                            by_cases hoff : start_dt.utcoffset = none ∨
                                end_dt.utcoffset = none
                            · rw [if_pos hoff] at h
                              exact Except.noConfusion h
                            · rw [if_neg hoff] at h
                              by_cases hk : (isoformat start_dt ++ "|" ++
                                  isoformat end_dt) ∈ candidate_keys
                              · rw [if_pos hk] at h
                                cases hr : reasonResolved option_fields with
                                | null =>
                                  rw [hr] at h
                                  exact Except.noConfusion h
                                | bool b =>
                                  rw [hr] at h
                                  exact Except.noConfusion h
                                | num n =>
                                  rw [hr] at h
                                  exact Except.noConfusion h
                                | arr items =>
                                  rw [hr] at h
                                  exact Except.noConfusion h
                                | obj f5 =>
                                  rw [hr] at h
                                  exact Except.noConfusion h
                                | str reason =>
                                  rw [hr] at h
                                  push_neg at hoff
                                  exact ⟨fields, message, option_fields, ss, se,
                                    start_dt, end_dt, reason, rfl, hm, ht, ho,
                                    hs, he, hfs, hfe, hoff.1, hoff.2, hk, hr,
                                    (Except.ok.inj h).symm⟩
                              · rw [if_neg hk] at h
                                exact Except.noConfusion h
  · rintro ⟨fields, message, option_fields, ss, se, start_dt, end_dt, reason,
      rfl, hm, ht, ho, hs, he, hfs, hfe, ho1, ho2, hk, hr, rfl⟩
    simp only [extract_option_from_payload, hm]
    rw [if_neg ht, ho]
    simp only [validateOptionPayload, hs, he, fromisoformatJson, hfs, hfe]
    rw [if_neg (not_or.mpr ⟨ho1, ho2⟩), if_pos hk, hr]

/-- A well-formed model reply whose option echoes a candidate verbatim. -/
def okPayload : Json :=
  Json.obj [("message", Json.str "Found a great time."),
    ("option", Json.obj [
      ("start", Json.str "2025-01-02T09:00:00+00:00"),
      ("end", Json.str "2025-01-02T10:00:00+00:00"),
      ("reason", Json.str "fits the morning")])]

/-- Witness for the amended claim C1: the characterization applied at a
concrete successful payload. -/
theorem extract_option_ok_iff_witness :
    extract_option_from_payload okPayload
      ["2025-01-02T09:00:00+00:00|2025-01-02T10:00:00+00:00"]
      "option_a" "Option A" =
      Except.ok ("Found a great time.",
        ⟨"option_a", "Option A", ⟨2025, 1, 2, 9, 0, 0, 0, some 0⟩,
          ⟨2025, 1, 2, 10, 0, 0, 0, some 0⟩, "fits the morning"⟩) :=
  (extract_option_ok_iff okPayload
      ["2025-01-02T09:00:00+00:00|2025-01-02T10:00:00+00:00"]
      "option_a" "Option A" _).mpr
    ⟨[("message", Json.str "Found a great time."),
      ("option", Json.obj [
        ("start", Json.str "2025-01-02T09:00:00+00:00"),
        ("end", Json.str "2025-01-02T10:00:00+00:00"),
        ("reason", Json.str "fits the morning")])],
     "Found a great time.",
     [("start", Json.str "2025-01-02T09:00:00+00:00"),
      ("end", Json.str "2025-01-02T10:00:00+00:00"),
      ("reason", Json.str "fits the morning")],
     "2025-01-02T09:00:00+00:00", "2025-01-02T10:00:00+00:00",
     ⟨2025, 1, 2, 9, 0, 0, 0, some 0⟩, ⟨2025, 1, 2, 10, 0, 0, 0, some 0⟩,
     "fits the morning",
     rfl, rfl, by decide, rfl, rfl, rfl, by decide, by decide, by decide,
     by decide, by decide, rfl, by decide⟩

/-! ### Claim C10: the `options` list fallback -/

lemma lookupLast_append (fields : List (String × Json)) (k : String) (v : Json)
    (key : String) :
    lookupLast (fields ++ [(k, v)]) key =
      if k = key then some v else lookupLast fields key := by
  induction fields with
  | nil => simp [lookupLast]
  | cons p rest ih =>
    obtain ⟨k2, v2⟩ := p
    rw [List.cons_append]
    rw [show lookupLast ((k2, v2) :: (rest ++ [(k, v)])) key =
        (match lookupLast (rest ++ [(k, v)]) key with
         | some v3 => some v3
         | none => if k2 = key then some v2 else none) from rfl]
    rw [ih]
    by_cases hk : k = key
    · rw [if_pos hk, if_pos hk]
    · rw [if_neg hk, if_neg hk]
      rw [show lookupLast ((k2, v2) :: rest) key =
          (match lookupLast rest key with
           | some v3 => some v3
           | none => if k2 = key then some v2 else none) from rfl]

lemma pyGet_append_ne (fields : List (String × Json)) (k : String) (v : Json)
    (key : String) (h : k ≠ key) :
    pyGet (fields ++ [(k, v)]) key = pyGet fields key := by
  unfold pyGet
  rw [lookupLast_append, if_neg h]

/-- Claim C10: when the payload has no usable `option` value but has a
non-empty `options` list, `_extract_option_from_payload` takes the first
element of that list as the option and validates it exactly as it would a
value of the `option` key (extracting from the payload with that element
appended under the `option` key gives the identical result). -/
theorem extract_option_options_fallback (fields : List (String × Json))
    (candidate_keys : List String) (option_id option_label : String)
    (x : Json) (xs : List Json)
    (hopt : pyGet fields "option" = none)
    (hopts : pyGet fields "options" = some (Json.arr (x :: xs))) :
    resolveOptionPayload fields = some x ∧
    extract_option_from_payload (Json.obj fields) candidate_keys option_id
        option_label =
      extract_option_from_payload (Json.obj (fields ++ [("option", x)]))
        candidate_keys option_id option_label := by
  have hres : resolveOptionPayload fields = some x := by
    unfold resolveOptionPayload
    rw [hopt, hopts]
  have hl : lookupLast (fields ++ [("option", x)]) "option" = some x := by
    rw [lookupLast_append]
    simp
  have hmsg : pyGet (fields ++ [("option", x)]) "message" = pyGet fields "message" :=
    pyGet_append_ne fields "option" x "message" (by decide)
  have hres2 : resolveOptionPayload (fields ++ [("option", x)]) = some x := by
    cases x with
    | null =>
      have hg : pyGet (fields ++ [("option", Json.null)]) "option" = none := by
        unfold pyGet
        rw [hl]
      have hg2 : pyGet (fields ++ [("option", Json.null)]) "options" =
          some (Json.arr (Json.null :: xs)) := by
        rw [pyGet_append_ne fields "option" Json.null "options" (by decide), hopts]
      unfold resolveOptionPayload
      rw [hg, hg2]
    | bool b =>
      have hg : pyGet (fields ++ [("option", Json.bool b)]) "option" =
          some (Json.bool b) := by
        unfold pyGet
        rw [hl]
      unfold resolveOptionPayload
      rw [hg]
    | num n =>
      have hg : pyGet (fields ++ [("option", Json.num n)]) "option" =
          some (Json.num n) := by
        unfold pyGet
        rw [hl]
      unfold resolveOptionPayload
      rw [hg]
    | str s =>
      have hg : pyGet (fields ++ [("option", Json.str s)]) "option" =
          some (Json.str s) := by
        unfold pyGet
        rw [hl]
      unfold resolveOptionPayload
      rw [hg]
    | arr items =>
      have hg : pyGet (fields ++ [("option", Json.arr items)]) "option" =
          some (Json.arr items) := by
        unfold pyGet
        rw [hl]
      unfold resolveOptionPayload
      rw [hg]
    | obj f2 =>
      have hg : pyGet (fields ++ [("option", Json.obj f2)]) "option" =
          some (Json.obj f2) := by
        unfold pyGet
        rw [hl]
      unfold resolveOptionPayload
      rw [hg]
  refine ⟨hres, ?_⟩
  unfold extract_option_from_payload
  dsimp only
  rw [hmsg, hres, hres2]

/-- First element of the fallback example's `options` list. -/
def fbOption : Json :=
  Json.obj [("start", Json.str "2025-01-02T09:00:00+00:00"),
    ("end", Json.str "2025-01-02T10:00:00+00:00")]

/-- Payload fields for the fallback example: no `option` key, a two-element
`options` list. -/
def fbFields : List (String × Json) :=
  [("message", Json.str "ok"),
   ("options", Json.arr [fbOption, Json.str "extra"])]

/-- Witness for claim C10 at a concrete payload. -/
theorem extract_option_options_fallback_witness :
    resolveOptionPayload fbFields = some fbOption ∧
    extract_option_from_payload (Json.obj fbFields) [] "option_a" "Option A" =
      extract_option_from_payload
        (Json.obj (fbFields ++ [("option", fbOption)])) [] "option_a"
        "Option A" :=
  extract_option_options_fallback fbFields [] "option_a" "Option A" fbOption
    [Json.str "extra"] rfl rfl

/-! ### Recommendation orchestration (`generate_recommendations` and the
route handler `create_recommendations`)

`app/services/gemini.py` lines 270-338 and
`app/routes/recommendations.py` lines 84-116.  Impure collaborators are
parameters: the prompt loader (`load_prompt`, `none` = `FileNotFoundError` /
`ValueError`), the model transport (`call_model`, one invocation per prompt;
the thread pool runs both submitted calls, so the invocation count is 2 as
soon as the model stage is reached), and the clock/timezone (`now`,
`tzOffsetMinutes`, `sysOffsetMinutes`).  The second component of the result
counts model invocations.  `created_at` (an impure default) is omitted from
the response model. -/

/-- Civil date from days since 1970-01-01 (inverse of `daysFromCivil`),
used to render a timeline instant back into calendar fields. -/
def civilFromDays (z : Int) : Int × Int × Int :=
  let z2 := z + 719468
  let era := (if 0 ≤ z2 then z2 else z2 - 146096) / 146097
  let doe := z2 - era * 146097
  let yoe := (doe - doe / 1460 + doe / 36524 - doe / 146096) / 365
  let y := yoe + era * 400
  let doy := doe - (365 * yoe + yoe / 4 - yoe / 100)
  let mp := (5 * doy + 2) / 153
  let d := doy - (153 * mp + 2) / 5 + 1
  let m := mp + (if mp < 10 then 3 else -9)
  (y + (if m ≤ 2 then 1 else 0), m, d)

/-- The datetime of a timeline instant in the fixed-offset request zone. -/
def pyDatetimeOfMicros (t : Int) (offsetMinutes : Int) : PyDatetime :=
  let ymd := civilFromDays (t / 86400000000)
  { year := ymd.1.toNat, month := ymd.2.1.toNat, day := ymd.2.2.toNat,
    hour := ((t / 3600000000) % 24).toNat,
    minute := ((t / 60000000) % 60).toNat,
    second := ((t / 1000000) % 60).toNat,
    microsecond := (t % 1000000).toNat,
    utcoffset := some offsetMinutes }

/-- `CandidateSlot.key`: the pipe-joined pair of ISO serializations. -/
def CandidateSlot.key (tzOffsetMinutes : Int) (slot : CandidateSlot) : String :=
  isoformat (pyDatetimeOfMicros slot.start tzOffsetMinutes) ++ "|" ++
    isoformat (pyDatetimeOfMicros slot.«end» tzOffsetMinutes)

/-- `BusyResponse` from `app/schemas/availability.py` (string-level
intervals, as the enumerator consumes them). -/
structure BusyResponse where
  timezone : String
  intervals : List BusyIntervalISO

/-- `DEFAULT_RECOMMENDATION_MESSAGE` (`app/services/gemini.py`, line 28). -/
def DEFAULT_RECOMMENDATION_MESSAGE : String :=
  "Here are two meeting options that fit your availability."

/-- `RecommendationResponse` from `app/schemas/recommendations.py`
(`created_at` omitted; see section comment). -/
structure RecommendationResponse where
  scenario : String
  message : String
  options : List RecommendationOption
  model : String
deriving DecidableEq, Repr

/-- `generate_recommendations`: resolve the timezone name by Python `or`
truthiness, enumerate candidates, fail before any prompt loading or model
call when fewer than two candidates exist, load both prompts, then issue the
two model calls (both futures run: count 2) and validate each reply; a
failure in either sub-call fails the whole request; on success the response
carries the canned message, both options in submission order, and the model
name. -/
def generate_recommendations
    (scenario : String) (request_timezone : Option String)
    (busy_response : BusyResponse)
    (duration_minutes days_ahead : Int) (model_name : String)
    (prompt_option_a prompt_option_b : String)
    (load_prompt : String → Option String)
    (call_model : String → Except PyErr Json)
    (tzOffsetMinutes sysOffsetMinutes now : Int) :
    Except PyErr RecommendationResponse × Nat :=
  let _tz_name :=
    match request_timezone with
    | some s =>
      if s ≠ "" then s
      else if busy_response.timezone ≠ "" then busy_response.timezone else "UTC"
    | none =>
      if busy_response.timezone ≠ "" then busy_response.timezone else "UTC"
  let candidates := generate_candidate_slots busy_response.intervals
    tzOffsetMinutes sysOffsetMinutes duration_minutes days_ahead now
  if candidates.length < 2 then
    (.error (.valueError
      "Not enough available slots within the next 7 days to recommend a meeting."), 0)
  else
    match load_prompt prompt_option_a with
    | none =>
      (.error (.valueError ("System prompt \x27" ++ prompt_option_a ++
        "\x27 could not be loaded.")), 0)
    | some system_prompt_a =>
      match load_prompt prompt_option_b with
      | none =>
        (.error (.valueError ("System prompt \x27" ++ prompt_option_b ++
          "\x27 could not be loaded.")), 0)
      | some system_prompt_b =>
        let candidate_keys := candidates.map (CandidateSlot.key tzOffsetMinutes)
        let result_a := (call_model system_prompt_a).bind fun payload =>
          extract_option_from_payload payload candidate_keys "option_a" "Option A"
        let result_b := (call_model system_prompt_b).bind fun payload =>
          extract_option_from_payload payload candidate_keys "option_b" "Option B"
        match result_a with
        | .error e => (.error e, 2)
        | .ok (message_a, option_a) =>
          match result_b with
          | .error e => (.error e, 2)
          | .ok (message_b, option_b) =>
            if pyStrip message_a = "" ∧ pyStrip message_b = "" then
              (.error (.valueError
                "Gemini responses did not include descriptive messages."), 2)
            else
              (.ok { scenario := scenario,
                     message := DEFAULT_RECOMMENDATION_MESSAGE,
                     options := [option_a, option_b],
                     model := model_name }, 2)

/-- HTTP error conditions raised by the recommendation route. -/
inductive HttpError where
  | conflict409 (detail : String)
  | internalServerError500 (detail : String)
  | badRequest400 (detail : String)
  | badGateway502 (detail : String)
deriving DecidableEq, Repr

/-- The route invocation of `generate_recommendations`
(`routes/recommendations.py`, lines 95-102): the source passes `client`,
`request`, `busy_response`, `duration_minutes`, `days_ahead` and
`model_name` but omits the required keyword-only parameters
`prompt_option_a` and `prompt_option_b` of `generate_recommendations`
(`app/services/gemini.py`, lines 270-280), so the call raises `TypeError`
before the service function body runs: through the route, no prompt is
loaded, no candidate is enumerated, and no model call is made. -/
def generate_recommendations_route_call :
    Except PyErr RecommendationResponse × Nat :=
  (.error (.typeError
    ("generate_recommendations() missing 2 required keyword-only arguments: " ++
      "\x27prompt_option_a\x27 and \x27prompt_option_b\x27")), 0)

/-- `create_recommendations` (the route handler): 409 when no busy snapshot
is stored (before the client check and before any model work), 500 when the
client is unconfigured; otherwise the call into the service, whose outcome
the handlers map with `ValueError` to 400 and any other exception to 502.
Because the source call site omits the required prompt arguments, that
outcome is always the call-site `TypeError`
(`generate_recommendations_route_call`). -/
def create_recommendations
    (snapshot : Option BusyResponse) (client_configured : Bool)
    (scenario : String) (request_timezone : Option String)
    (duration_minutes days_ahead : Int) (model_name : String) :
    Except HttpError RecommendationResponse × Nat :=
  match snapshot with
  | none =>
    (.error (.conflict409
      "No busy availability submitted. Please mark busy slots in the calendar first."), 0)
  | some busy_response =>
    if client_configured then
      match generate_recommendations_route_call with
      | (.error (.valueError msg), n) => (.error (.badRequest400 msg), n)
      | (.error (.typeError _), n) =>
        (.error (.badGateway502
          "Gemini service failed to return recommendations."), n)
      | (.ok r, n) => (.ok r, n)
    else
      (.error (.internalServerError500 "Gemini API key is not configured."), 0)

/-- Claim C6: with no stored busy snapshot the request fails with the
conflict condition and zero model invocations; with a snapshot whose
candidate enumeration yields fewer than two slots,
`generate_recommendations` fails with the insufficient-availability
`ValueError` with zero model invocations.  The third conjunct records the
route wiring defect (`generate_recommendations_route_call`): every
snapshot-present, client-configured request 502s at the call site, also
with zero model invocations, so the service-level early exit of the second
conjunct is reachable only by callers that supply the prompt arguments. -/
theorem recommendation_early_failures :
    (∀ (client_configured : Bool) (scenario : String)
        (request_timezone : Option String) (duration_minutes days_ahead : Int)
        (model_name : String),
      create_recommendations none client_configured scenario request_timezone
          duration_minutes days_ahead model_name =
        (Except.error (HttpError.conflict409
          "No busy availability submitted. Please mark busy slots in the calendar first."),
         0)) ∧
    (∀ (scenario : String) (request_timezone : Option String)
        (busy_response : BusyResponse) (duration_minutes days_ahead : Int)
        (model_name prompt_option_a prompt_option_b : String)
        (load_prompt : String → Option String)
        (call_model : String → Except PyErr Json)
        (tzOffsetMinutes sysOffsetMinutes now : Int),
      (generate_candidate_slots busy_response.intervals tzOffsetMinutes
          sysOffsetMinutes duration_minutes days_ahead now).length < 2 →
      generate_recommendations scenario request_timezone busy_response
          duration_minutes days_ahead model_name prompt_option_a
          prompt_option_b load_prompt call_model tzOffsetMinutes
          sysOffsetMinutes now =
        (Except.error (PyErr.valueError
          "Not enough available slots within the next 7 days to recommend a meeting."),
         0)) ∧
    (∀ (busy_response : BusyResponse) (scenario : String)
        (request_timezone : Option String) (duration_minutes days_ahead : Int)
        (model_name : String),
      create_recommendations (some busy_response) true scenario
          request_timezone duration_minutes days_ahead model_name =
        (Except.error (HttpError.badGateway502
          "Gemini service failed to return recommendations."),
         0)) := by
  refine ⟨?_, ?_, ?_⟩
  · intros
    rfl
  · intro scenario request_timezone busy_response duration_minutes days_ahead
      model_name prompt_option_a prompt_option_b load_prompt call_model
      tzOffsetMinutes sysOffsetMinutes now h
    simp only [generate_recommendations]
    rw [if_pos h]
  · intros
    rfl

lemma generate_candidate_slots_empty_window :
    generate_candidate_slots [] 0 0 60 0 0 = [] := by
  simp only [generate_candidate_slots]
  rw [slotLoop]
  have hr : round_up_to_increment 0 SLOT_INCREMENT_MINUTES = 0 := by decide
  rw [hr]
  norm_num

/-- Witness for claim C6: the insufficient-availability clause applied to a
stored snapshot with no busy intervals and a zero-day look-ahead window. -/
theorem recommendation_early_failures_witness :
    generate_recommendations "plan a sync" none ⟨"UTC", []⟩ 60 0
        "gemini-2.5-pro" "option_a" "option_b" (fun _ => none)
        (fun _ => Except.error (PyErr.valueError "transport down")) 0 0 0 =
      (Except.error (PyErr.valueError
        "Not enough available slots within the next 7 days to recommend a meeting."),
       0) :=
  recommendation_early_failures.2.1 "plan a sync" none ⟨"UTC", []⟩ 60 0
    "gemini-2.5-pro" "option_a" "option_b" (fun _ => none)
    (fun _ => Except.error (PyErr.valueError "transport down")) 0 0 0
    (by rw [generate_candidate_slots_empty_window]; decide)
